import Mathlib

/-!
A verification development for a VCF (variant call format) reader/writer
library written in Rust.  The definitions below are a shallow embedding of
the library's source files `src/header.rs` and `src/body.rs`: strings are
modelled as Lean `String`s (worked on through their character lists, which
matches the Rust byte-index arithmetic on the ASCII inputs the grammar
deals in), the `linked_hash_map::LinkedHashMap` is modelled as an
insertion-ordered association list whose `insert` overwrites the value of
an existing key in place, `anyhow::Result` is modelled as `Except String`,
and a Rust panic (an `unwrap` of a `None`/`Err`) is modelled by a
distinguished outcome `RustResult.panicked`.
-/

namespace Vcf

/-- Model of Rust's `str::parse::<uN>` for an unsigned integer type with
exclusive upper bound `bound` (`2^32` for `u32`, `2^64` for `u64`): an
optional leading `+`, then one or more decimal digits, rejecting overflow.
Error strings follow `ParseIntError`'s display. -/
def rustParseUInt (bound : Nat) (s : String) : Except String Nat :=
  let ds : List Char := match s.data with
    | '+' :: rest => rest
    | l => l
  if s.data = [] then .error "cannot parse integer from empty string"
  else if ds = [] then .error "invalid digit found in string"
  else if ds.all (fun c => c.isDigit) then
    let v := ds.foldl (fun a c => a * 10 + (c.toNat - 48)) 0
    if v < bound then .ok v else .error "number too large to fit in target type"
  else .error "invalid digit found in string"

/-- `true` for an `Except` holding a value. -/
def isOkE : Except String α → Bool
  | .ok _ => true
  | .error _ => false

/-- `true` for an `Except` holding an error. -/
def isErrE : Except String α → Bool
  | .ok _ => false
  | .error _ => true

/-- Rust's `str::split(sep)` on a character list: always at least one part,
empty parts kept. -/
def splitCh (c : Char) : List Char → List (List Char)
  | [] => [[]]
  | x :: xs =>
    let r := splitCh c xs
    if x = c then [] :: r
    else
      match r with
      | [] => [[x]]
      | y :: ys => (x :: y) :: ys

/-- `str::split` returning strings. -/
def splitStr (c : Char) (s : String) : List String :=
  (splitCh c s.data).map String.mk

/-- Rust's `str::trim`: strip whitespace from both ends. -/
def trimStr (s : String) : String :=
  String.mk (((s.data.dropWhile Char.isWhitespace).reverse.dropWhile
    Char.isWhitespace).reverse)

/-- Rust's `str::starts_with` on character lists. -/
def listPfx : List Char → List Char → Bool
  | [], _ => true
  | _ :: _, [] => false
  | p :: ps, c :: cs => p == c && listPfx ps cs

/-- Insertion-ordered association list standing for
`linked_hash_map::LinkedHashMap`.  `insert` of a key that is already
present detaches the existing entry and re-attaches it (with the new
value) at the back of the iteration order; `insert` of a new key
appends.  Both cases are the removal of any entry with that key followed
by an append. -/
def lhmInsert (m : List (String × String)) (k v : String) :
    List (String × String) :=
  m.filter (fun q => !(k == q.1)) ++ [(k, v)]

/-- `LinkedHashMap::get`. -/
def lhmGet (m : List (String × String)) (k : String) : Option String :=
  (m.find? (fun p => p.1 == k)).map (fun p => p.2)

/-- Whether some pair of `E` carries the key `k`. -/
def keyMem (k : String) (E : List (String × String)) : Bool :=
  E.any (fun q => q.1 == k)

/-- Sequentially `lhmInsert` every pair of `E`, in order, into an empty
map — exactly how the Rust code builds its `LinkedHashMap` from the
pairs its scanner recognizes. -/
def lhmBuild (E : List (String × String)) : List (String × String) :=
  E.foldl (fun a q => lhmInsert a q.1 q.2) []

/-- Specification-side rendering of "the input's keys in the order of
their last occurrences": keep a key only at its final occurrence. -/
def lastKeys : List (String × String) → List String
  | [] => []
  | p :: E => if keyMem p.1 E then lastKeys E else p.1 :: lastKeys E

/-- Specification-side rendering of "the value of the last occurrence of
`k` wins": the value of the last pair of `E` carrying `k`, if any. -/
def lastVal (k : String) : List (String × String) → Option String
  | [] => none
  | p :: E =>
    match lastVal k E with
    | some v => some v
    | none => if p.1 == k then some p.2 else none

/-- Outcome of a Rust function that may return `Ok`, return `Err`, or
panic. -/
inductive RustResult (α : Type) where
  | ok (a : α)
  | err (e : String)
  | panicked
deriving DecidableEq

end Vcf

namespace Vcf.Header

/-- `pub const OTHER_KEY: &str = "Value";` from `header.rs`. -/
def OTHER_KEY : String := "Value"

/-- The payload tokenizer's scanner state (`PayloadParseState` in
`header.rs`). -/
inductive PState where
  | key
  | value
  | enclosedValue (c : Char)
  | quoteEnded
deriving DecidableEq

/-- The mutable locals of `parse_header_payload`'s scanning loop. -/
structure ScanSt where
  st : PState
  keyStart : Nat
  keyEnd : Nat
  valueStart : Nat
  prev : Char
  res : List (String × String)
deriving DecidableEq

/-- `&payload[a..b]` as a string (character-index slicing). -/
def slice (cs : List Char) (a b : Nat) : String :=
  String.mk ((cs.drop a).take (b - a))

/-- The common end-of-value action of the scanner: read off the pending
key and the value slice ending at `vEnd`, reject an empty key or value,
otherwise record the pair and move on with key start `nks` in state
`nst`.  `res` accumulates the recognized pairs in occurrence order; the
map the Rust code builds by inserting them one by one as it goes is
recovered as `lhmBuild res` at the end, which is the same sequential
insert fold. -/
def finishValue (cs : List Char) (s : ScanSt) (vEnd : Nat) (nks : Nat)
    (nst : PState) : Except String ScanSt :=
  if slice cs s.keyStart s.keyEnd = "" then
    .error ("invalid header payload `" ++ String.mk cs ++ "`, (empty key)")
  else if slice cs s.valueStart vEnd = "" then
    .error ("invalid header payload `" ++ String.mk cs ++ "`, (empty value)")
  else
    .ok { s with
      res := s.res ++
        [(slice cs s.keyStart s.keyEnd, slice cs s.valueStart vEnd)],
      keyStart := nks, st := nst }

/-- One iteration of `parse_header_payload`'s `for (ch_idx, ch)` loop.
`cs` is the whole (bracket-stripped) payload, `n` its length, `i` the
index of `ch`. -/
def scanStep (cs : List Char) (n : Nat) (i : Nat) (ch : Char)
    (s : ScanSt) : Except String ScanSt :=
  match s.st with
  | .key =>
    if ch = '=' then
      .ok { s with keyEnd := i, valueStart := i + 1, st := .value }
    else .ok s
  | .value =>
    if ch = ',' ∨ i = n - 1 then
      finishValue cs s (if ch = ',' then i else n) (i + 1) .key
    else if ch = '"' ∨ ch = '[' then
      if i ≠ s.valueStart then
        .error ("invalid header payload `" ++ String.mk cs ++
          "`, (invalid character `" ++ String.mk [ch] ++ "` found)")
      else
        .ok { s with valueStart := i + 1, prev := '_', st := .enclosedValue ch }
    else .ok s
  | .enclosedValue ec =>
    if (ec = '"' ∧ ch = '"' ∧ s.prev ≠ '\\') ∨ (ec = '[' ∧ ch = ']') then
      finishValue cs s i s.keyStart .quoteEnded
    else if ch = '\\' ∧ s.prev = '\\' then
      .ok { s with prev := '_' }
    else
      .ok { s with prev := ch }
  | .quoteEnded =>
    if ch = ',' then
      .ok { s with st := .key, keyStart := i + 1 }
    else
      .error ("invalid header payload `" ++ String.mk cs ++
        "`, non `,` character found after closing quote")

/-- The scanning loop itself: runs `scanStep` over the remaining
characters `rest`, `i` being the index of the head of `rest` in `cs`. -/
def scanGo (cs : List Char) (n : Nat) : Nat → List Char → ScanSt →
    Except String ScanSt
  | _, [], s => .ok s
  | i, ch :: rest, s =>
    match scanStep cs n i ch s with
    | .error e => .error e
    | .ok s' => scanGo cs n (i + 1) rest s'

/-- The initial scanner state. -/
def initSt : ScanSt := ⟨.key, 0, 0, 0, '_', []⟩

/-- The end-of-input state checks of `parse_header_payload`: a scan left
mid-value or inside an enclosed value is an error; any other final state
returns the accumulated mapping. -/
def endStateCheck (p : List Char) (st : PState)
    (res : List (String × String)) :
    Except String (List (String × String)) :=
  match st with
  | .value =>
    .error ("invalid header payload `" ++ String.mk p ++ "`, (empty value)")
  | .enclosedValue _ =>
    .error ("invalid header payload `" ++ String.mk p ++ "`, (unbalanced quote)")
  | _ => .ok res

/-- The body of the tokenizer once the angle brackets are stripped,
returning the ordered sequence of key/value pairs it recognizes: reject
an empty payload, treat an `=`-free payload as a single value under
`OTHER_KEY`, otherwise run the key/value scanner and apply the
end-of-input state checks. -/
def parsePayloadStripped (p : List Char) :
    Except String (List (String × String)) :=
  if p = [] then .error "invalid header payload, (empty)"
  else if ¬ p.contains '=' then .ok [(OTHER_KEY, String.mk p)]
  else
    match scanGo p p.length 0 p initSt with
    | .error e => .error e
    | .ok s => endStateCheck p s.st s.res

/-- The ordered sequence of key/value pairs `parse_header_payload`
recognizes in a payload: strip balanced angle brackets (rejecting
one-sided brackets), then scan. -/
def header_pairs (payload : String) :
    Except String (List (String × String)) :=
  let p0 := payload.data
  if p0.headD ' ' = '<' ∨ p0.getLastD ' ' = '>' then
    if ¬ (p0.headD ' ' = '<' ∧ p0.getLastD ' ' = '>') then
      .error ("invalid header payload `" ++ payload ++
        "`, (unbalanced triangle brackets)")
    else parsePayloadStripped ((p0.drop 1).take (p0.length - 2))
  else parsePayloadStripped p0

/-- `parse_header_payload` from `header.rs`: the returned map is the
sequential `LinkedHashMap::insert` of every recognized pair, in
occurrence order — written as `lhmBuild` over `header_pairs`, which is
that insert fold. -/
def parse_header_payload (payload : String) :
    Except String (List (String × String)) :=
  (header_pairs payload).map lhmBuild

/-- `Number` from `header.rs`: cardinality of a FORMAT/INFO field. -/
inductive Number where
  | integer (n : Nat)
  | allele
  | reference
  | genotype
  | unknown
deriving DecidableEq

/-- `Number::new`: absent key defaults to `Unknown`; `A`/`G`/`R`/`.`
sentinels; otherwise a `u32` parse. -/
def Number.new (number_str : Option String) : Except String Number :=
  match number_str with
  | none => .ok .unknown
  | some s =>
    if s = "A" then .ok .allele
    else if s = "G" then .ok .genotype
    else if s = "R" then .ok .reference
    else if s = "." then .ok .unknown
    else
      match rustParseUInt (2 ^ 32) s with
      | .ok n => .ok (.integer n)
      | .error _ => .error ("invalid Number value `" ++ s ++ "`")

/-- `Display for Number`. -/
def Number.display : Number → String
  | .allele => "A"
  | .genotype => "G"
  | .reference => "R"
  | .unknown => "."
  | .integer n => toString n

/-- `InfoType` from `header.rs` (the `Type` key of `##INFO`). -/
inductive InfoType where
  | character
  | flag
  | float
  | integer
  | string
deriving DecidableEq

/-- `InfoType::new`: absent key defaults to `String`. -/
def InfoType.new (type_str : Option String) : Except String InfoType :=
  match type_str with
  | none => .ok .string
  | some s =>
    if s = "Character" then .ok .character
    else if s = "Flag" then .ok .flag
    else if s = "Float" then .ok .float
    else if s = "Integer" then .ok .integer
    else if s = "String" then .ok .string
    else .error ("invalid InfoType value `" ++ s ++ "`")

/-- `Display for InfoType`. -/
def InfoType.display : InfoType → String
  | .character => "Character"
  | .flag => "Flag"
  | .integer => "Integer"
  | .float => "Float"
  | .string => "String"

/-- `AltId` from `header.rs` (the colon-separated segments of an
`##ALT` line's `ID`). -/
inductive AltId where
  | del
  | ins
  | dup
  | inv
  | cnv
  | bnd
  | other (s : String)
deriving DecidableEq

/-- The total classification underlying `AltId::new` on a non-empty
segment. -/
def AltId.ofStr (s : String) : AltId :=
  if s = "DEL" then .del
  else if s = "INS" then .ins
  else if s = "DUP" then .dup
  else if s = "INV" then .inv
  else if s = "CNV" then .cnv
  else if s = "BND" then .bnd
  else .other s

/-- `AltId::new`: an empty segment is an error. -/
def AltId.new (s : String) : Except String AltId :=
  if s = "" then .error "invalid AltId, empty value"
  else .ok (AltId.ofStr s)

/-- `AltId::new_alt_ids`: colon-split, each segment through
`AltId::new(..).unwrap()` — an empty segment therefore panics (`none`
models the panic). -/
def AltId.new_alt_ids (ids_str : String) : Option (List AltId) :=
  let parts := splitStr ':' ids_str
  if parts.any (fun p => p = "") then none
  else some (parts.map AltId.ofStr)

/-- `Display for AltId`. -/
def AltId.display : AltId → String
  | .del => "DEL"
  | .ins => "INS"
  | .dup => "DUP"
  | .inv => "INV"
  | .cnv => "CNV"
  | .bnd => "BND"
  | .other s => s

/-- `FormatType` from `header.rs` (the `Type` key of `##FORMAT`). -/
inductive FormatType where
  | character
  | integer
  | float
  | string
deriving DecidableEq

/-- `FormatType::new`: absent key defaults to `String`. -/
def FormatType.new (type_str : Option String) : Except String FormatType :=
  match type_str with
  | none => .ok .string
  | some s =>
    if s = "Character" then .ok .character
    else if s = "Float" then .ok .float
    else if s = "Integer" then .ok .integer
    else if s = "String" then .ok .string
    else .error ("invalid FormatType value `" ++ s ++ "`")

/-- `Display for FormatType`. -/
def FormatType.display : FormatType → String
  | .character => "Character"
  | .integer => "Integer"
  | .float => "Float"
  | .string => "String"

/-- `PedigreeType` from `header.rs`. -/
inductive PedigreeType where
  | original (s : String)
  | parents (father_id mother_id : String)
  | ancestors (entries : List String)
deriving DecidableEq

/-- `HeaderLine` from `header.rs`: the tagged union of recognized
metadata-line kinds. -/
inductive HeaderLine where
  | alt (id : List AltId) (description : String)
  | assembly (s : String)
  | contig (id : String) (species : Option String)
      (other : List (String × String))
  | fileDate (s : String)
  | filter (id : String) (description : String)
  | format (id : String) (number : Number) (typ : FormatType)
      (description : String)
  | info (id : String) (number : Number) (typ : InfoType)
      (description : String) (source : Option String)
      (version : Option String)
  | meta (id : String) (typ : String) (number : Number)
      (values : List String)
  | pedigree (id : String) (relation : PedigreeType)
  | pedigreeDB (s : String)
  | other (key : String) (value : String)
  | sample (id : String) (meta : List (String × List String))
      (description : String) (doi : Option String)
deriving DecidableEq

/-- `get_map_value` from `header.rs` (the `map=..` debug dump of the
original message is left out of the model). -/
def get_map_value (m : List (String × String)) (k : String) :
    Except String String :=
  match lhmGet m k with
  | some v => .ok v
  | none => .error ("value not found in map: value=`" ++ k ++ "`")

/-- Lexicographic order on character lists by code point (Rust's `str`
ordering on the ASCII inputs involved). -/
def charListLt : List Char → List Char → Bool
  | [], [] => false
  | [], _ :: _ => true
  | _ :: _, [] => false
  | a :: xs, b :: ys =>
    if a.val < b.val then true
    else if b.val < a.val then false
    else charListLt xs ys

/-- Order on key/value pairs used by `kv_entries.sort()` in
`PedigreeType::new` (lexicographic on the pair). -/
def pairLe (x y : String × String) : Bool :=
  charListLt x.1.data y.1.data ||
    (x.1 == y.1 && (charListLt x.2.data y.2.data || x.2 == y.2))

/-- Insert into a list sorted by `le`. -/
def insertLe (le : α → α → Bool) (a : α) : List α → List α
  | [] => [a]
  | b :: bs => if le a b then a :: b :: bs else b :: insertLe le a bs

/-- Insertion sort by `le` (the keys being pairwise distinct, it agrees
with Rust's `sort`). -/
def sortLe (le : α → α → Bool) : List α → List α
  | [] => []
  | a :: rest => insertLe le a (sortLe le rest)

/-- The collection loop of the `Ancestors` arm of `PedigreeType::new`:
skip `ID`, reject any key not starting with `Name_`, keep the values. -/
def collectAncestors : List (String × String) → Except String (List String)
  | [] => .ok []
  | (k, v) :: rest =>
    if k = "ID" then collectAncestors rest
    else if ¬ (listPfx "Name_".data k.data = true) then
      .error ("invalid pedigree type name `" ++ k ++ "`")
    else
      match collectAncestors rest with
      | .error e => .error e
      | .ok vs => .ok (v :: vs)

/-- `PedigreeType::new`: shape selected by which keys are present. -/
def PedigreeType.new (m : List (String × String)) :
    Except String PedigreeType :=
  if (lhmGet m "Original").isSome then
    match get_map_value m "Original" with
    | .error e => .error e
    | .ok v => .ok (.original v)
  else if (lhmGet m "Father").isSome ∨ (lhmGet m "Mother").isSome then
    match get_map_value m "Father" with
    | .error e => .error e
    | .ok f =>
      match get_map_value m "Mother" with
      | .error e => .error e
      | .ok mo => .ok (.parents f mo)
  else if (lhmGet m "Name_1").isSome then
    match collectAncestors (sortLe pairLe m) with
    | .error e => .error e
    | .ok entries => .ok (.ancestors entries)
  else .error "invalid pedigree type"

/-- The `"ALT"` arm of `HeaderLine::from_str`: a missing `ID` is an `Err`,
but an empty colon-segment inside `ID` panics (`new_alt_ids` unwraps). -/
def mkAlt (parts : List (String × String)) : RustResult HeaderLine :=
  match lhmGet parts "ID" with
  | none => .err "value not found"
  | some idv =>
    match AltId.new_alt_ids idv with
    | none => .panicked
    | some ids =>
      match get_map_value parts "Description" with
      | .error e => .err e
      | .ok d => .ok (.alt ids d)

/-- The `"contig"` arm of `HeaderLine::from_str`. -/
def mkContig (parts : List (String × String)) : RustResult HeaderLine :=
  match get_map_value parts "ID" with
  | .error e => .err e
  | .ok id =>
    let species := lhmGet parts "species"
    let other := parts.filter (fun p => p.1 ≠ "ID" ∧ p.1 ≠ "species")
    .ok (.contig id species other)

/-- The `"FILTER"` arm of `HeaderLine::from_str`. -/
def mkFilter (parts : List (String × String)) : RustResult HeaderLine :=
  match get_map_value parts "ID" with
  | .error e => .err e
  | .ok id =>
    match get_map_value parts "Description" with
    | .error e => .err e
    | .ok d => .ok (.filter id d)

/-- The `"FORMAT"` arm of `HeaderLine::from_str`. -/
def mkFormat (parts : List (String × String)) : RustResult HeaderLine :=
  match get_map_value parts "ID" with
  | .error e => .err e
  | .ok id =>
    match Number.new (lhmGet parts "Number") with
    | .error e => .err e
    | .ok number =>
      match FormatType.new (lhmGet parts "Type") with
      | .error e => .err e
      | .ok typ =>
        match get_map_value parts "Description" with
        | .error e => .err e
        | .ok d => .ok (.format id number typ d)

/-- The `"INFO"` arm of `HeaderLine::from_str`. -/
def mkInfo (parts : List (String × String)) : RustResult HeaderLine :=
  match get_map_value parts "ID" with
  | .error e => .err e
  | .ok id =>
    match Number.new (lhmGet parts "Number") with
    | .error e => .err e
    | .ok number =>
      match InfoType.new (lhmGet parts "Type") with
      | .error e => .err e
      | .ok typ =>
        match get_map_value parts "Description" with
        | .error e => .err e
        | .ok d =>
          .ok (.info id number typ d (lhmGet parts "Source")
            (lhmGet parts "Version"))

/-- The `"META"` arm of `HeaderLine::from_str`: `ID`, `Type` and `Number`
are checked through fallible lookups, but the `Values` key is fetched
with `.unwrap()` — its absence panics. -/
def mkMeta (parts : List (String × String)) : RustResult HeaderLine :=
  match get_map_value parts "ID" with
  | .error e => .err e
  | .ok id =>
    match get_map_value parts "Type" with
    | .error e => .err e
    | .ok typ =>
      match Number.new (lhmGet parts "Number") with
      | .error e => .err e
      | .ok number =>
        match lhmGet parts "Values" with
        | none => .panicked
        | some vs =>
          .ok (.meta id typ number
            ((splitStr ',' vs).map (fun s => trimStr s)))

/-- The `"PEDIGREE"` arm of `HeaderLine::from_str`. -/
def mkPedigree (parts : List (String × String)) : RustResult HeaderLine :=
  match get_map_value parts "ID" with
  | .error e => .err e
  | .ok id =>
    match PedigreeType.new parts with
    | .error e => .err e
    | .ok rel => .ok (.pedigree id rel)

/-- The `"SAMPLE"` arm of `HeaderLine::from_str`. -/
def mkSample (parts : List (String × String)) : RustResult HeaderLine :=
  match get_map_value parts "ID" with
  | .error e => .err e
  | .ok id =>
    match get_map_value parts "Description" with
    | .error e => .err e
    | .ok d =>
      let doi := lhmGet parts "DOI"
      let meta :=
        (parts.filter
          (fun p => p.1 ≠ "ID" ∧ p.1 ≠ "Description" ∧ p.1 ≠ "DOI")).map
          (fun p => (p.1, splitStr ';' p.2))
      .ok (.sample id meta d doi)

/-- An arm that pulls the whole payload from under `OTHER_KEY`
(`assembly`, `fileDate`, `pedigreeDB` and the fallback). -/
def mkFromOtherKey (mk : String → HeaderLine)
    (parts : List (String × String)) : RustResult HeaderLine :=
  match get_map_value parts OTHER_KEY with
  | .error e => .err e
  | .ok v => .ok (mk v)

/-- `HeaderLine::from_str`: split at the first `=`, check and strip `##`,
tokenize the payload, dispatch on the tag. -/
def HeaderLine.from_str (header_line_str : String) :
    RustResult HeaderLine :=
  let cs := header_line_str.data
  if ¬ cs.contains '=' then
    .err ("invalid header line `" ++ header_line_str ++
      "`, (header lines must contain an `=` sign)")
  else
    let i := cs.findIdx (fun c => c == '=')
    let header_type_full := String.mk (cs.take i)
    let header_payload := String.mk (cs.drop (i + 1))
    if ¬ (listPfx "##".data header_type_full.data = true) then
      .err ("invalid header type `" ++ header_type_full ++
        "`, (header lines must start with `##`)")
    else
      let header_type := String.mk (header_type_full.data.drop 2)
      match parse_header_payload header_payload with
      | .error e => .err e
      | .ok parts =>
        if header_type = "ALT" then mkAlt parts
        else if header_type = "assembly" then
          mkFromOtherKey HeaderLine.assembly parts
        else if header_type = "contig" then mkContig parts
        else if header_type = "fileDate" then
          mkFromOtherKey HeaderLine.fileDate parts
        else if header_type = "FILTER" then mkFilter parts
        else if header_type = "FORMAT" then mkFormat parts
        else if header_type = "INFO" then mkInfo parts
        else if header_type = "META" then mkMeta parts
        else if header_type = "PEDIGREE" then mkPedigree parts
        else if header_type = "pedigreeDB" then
          mkFromOtherKey HeaderLine.pedigreeDB parts
        else if header_type = "SAMPLE" then mkSample parts
        else mkFromOtherKey (HeaderLine.other header_type) parts

/-- `Display for PedigreeType`.  Note the `Ancestors` arm reproduces the
source faithfully: entries are emitted with zero-based `Name_i` keys and
no separator between successive entries. -/
def PedigreeType.display : PedigreeType → String
  | .original s => "Original=" ++ s
  | .parents f m => "Father=" ++ f ++ ",Mother=" ++ m
  | .ancestors entries =>
    String.join ((entries.enum.map
      (fun p => "Name_" ++ toString p.1 ++ "=" ++ p.2)))

/-- `Display for HeaderLine`.  Note the `Meta` arm reproduces the source
faithfully: the `Values` clause is emitted only when the list is empty
(the condition in the source is inverted). -/
def HeaderLine.display : HeaderLine → String
  | .alt id description =>
    "##ALT=<ID=" ++ String.intercalate ":" (id.map AltId.display) ++
      ",Description=\"" ++ description ++ "\">"
  | .assembly s => "##assembly=" ++ s
  | .contig id species oth =>
    "##contig=<ID=" ++ id ++
      (match species with
        | some s => ",species=\"" ++ s ++ "\""
        | none => "") ++
      String.join (oth.map (fun p => "," ++ p.1 ++ "=" ++ p.2)) ++ ">"
  | .fileDate s => "##fileDate=" ++ s
  | .filter id description =>
    "##FILTER=<ID=" ++ id ++ ",Description=\"" ++ description ++ "\">"
  | .format id number typ description =>
    "##FORMAT=<ID=" ++ id ++ ",Number=" ++ number.display ++ ",Type=" ++
      typ.display ++ ",Description=\"" ++ description ++ "\">"
  | .info id number typ description source version =>
    "##INFO=<ID=" ++ id ++ ",Number=" ++ number.display ++ ",Type=" ++
      typ.display ++ ",Description=\"" ++ description ++ "\"" ++
      (match source with
        | some s => ",Source=\"" ++ s ++ "\""
        | none => "") ++
      (match version with
        | some s => ",Version=\"" ++ s ++ "\""
        | none => "") ++ ">"
  | .meta id typ number values =>
    "##META=<ID=" ++ id ++ ",Type=" ++ typ ++ ",Number=" ++
      number.display ++
      (if values.isEmpty then
        ",Values=[" ++ String.intercalate "," values ++ "]"
      else "") ++ ">"
  | .pedigree id relation =>
    "##PEDIGREE=<ID=" ++ id ++ "," ++ relation.display ++ ">"
  | .pedigreeDB s => "##pedigreeDB=" ++ s
  | .other key value => "##" ++ key ++ "=" ++ value
  | .sample id me description doi =>
    "##SAMPLE=<ID=" ++ id ++
      String.join (me.map
        (fun p => "," ++ p.1 ++ "=" ++ String.intercalate ";" p.2)) ++
      ",Description=\"" ++ description ++ "\"" ++
      (match doi with
        | some s => ",DOI=" ++ s
        | none => "") ++ ">"

/-- `true` when parsing `line` succeeds and re-parsing its formatted
output returns the very same `HeaderLine`. -/
def roundTrips (line : String) : Bool :=
  match HeaderLine.from_str line with
  | .ok hl => decide (HeaderLine.from_str hl.display = .ok hl)
  | _ => false

/-- The fixed column prelude required of the column-name line. -/
def colPfx : String := "#CHROM\tPOS\tID\tREF\tALT\tQUAL\tFILTER\tINFO"

/-- Pairwise distinctness, as the `HashSet` insertion check of
`parse_column_names` computes it. -/
def uniqueb : List String → Bool
  | [] => true
  | x :: xs => !(xs.contains x) && uniqueb xs

/-- `parse_column_names` from `header.rs`. -/
def parse_column_names (column_line : String) :
    Except String (List String) :=
  if listPfx colPfx.data column_line.data = true then
    let remaining := trimStr (String.mk (column_line.data.drop colPfx.data.length))
    if remaining = "" then .ok []
    else
      if listPfx "FORMAT".data remaining.data = true then
        let remaining2 := trimStr (String.mk (remaining.data.drop 6))
        let columns := splitStr '\t' remaining2
        if uniqueb columns = true then .ok columns
        else .error "sample column names must be unique"
      else
        .error ("unexpected column name after `INFO` in line `" ++
          remaining ++ "`")
  else
    .error ("invalid columns line `" ++ column_line ++
      "` (columns line should start with `" ++ colPfx ++ "`)")

end Vcf.Header

namespace Vcf.Body

/-- `FIXED_COLUMNS` from `parser.rs`. -/
def FIXED_COLUMNS : List String :=
  ["CHROM", "POS", "ID", "REF", "ALT", "QUAL", "FILTER", "INFO"]

/-- `IdType` from `body.rs`. -/
inductive IdType where
  | missing
  | entries (l : List String)
deriving DecidableEq

/-- `IdType::from_str`: empty is an error, `.` is the missing sentinel,
anything else is semicolon-split (empty tokens kept). -/
def IdType.from_str (id_str : String) : Except String IdType :=
  if id_str = "" then .error "id cannot be empty"
  else if id_str = "." then .ok .missing
  else .ok (.entries (splitStr ';' id_str))

/-- `AltType` from `body.rs`. -/
inductive AltType where
  | missing
  | entries (l : List String)
deriving DecidableEq

/-- `AltType::from_str`: comma-split or missing sentinel. -/
def AltType.from_str (alt_str : String) : Except String AltType :=
  if alt_str = "" then .error "alt cannot be empty"
  else if alt_str = "." then .ok .missing
  else .ok (.entries (splitStr ',' alt_str))

/-- `QualType` from `body.rs`. -/
inductive QualType where
  | missing
  | integer (n : Nat)
deriving DecidableEq

/-- `QualType::from_str`: missing sentinel or a `u32` parse. -/
def QualType.from_str (qual_str : String) : Except String QualType :=
  if qual_str = "" then .error "qual cannot be empty"
  else if qual_str = "." then .ok .missing
  else
    match rustParseUInt (2 ^ 32) qual_str with
    | .error e => .error e
    | .ok n => .ok (.integer n)

/-- `FilterType` from `body.rs`. -/
inductive FilterType where
  | missing
  | pass
  | entries (l : List String)
deriving DecidableEq

/-- `FilterType::from_str`: missing sentinel, the literal `PASS`, or a
semicolon-split list. -/
def FilterType.from_str (filter_str : String) : Except String FilterType :=
  if filter_str = "" then .error "filter cannot be empty"
  else if filter_str = "." then .ok .missing
  else if filter_str = "PASS" then .ok .pass
  else .ok (.entries (splitStr ';' filter_str))

/-- `InfoType` from `body.rs` (distinct from the header's `InfoType`). -/
inductive InfoType where
  | missing
  | entries (l : List String)
deriving DecidableEq

/-- `InfoType::from_str`: missing sentinel or semicolon-split list. -/
def InfoType.from_str (info_str : String) : Except String InfoType :=
  if info_str = "" then .error "info cannot be empty"
  else if info_str = "." then .ok .missing
  else .ok (.entries (splitStr ';' info_str))

/-- `FormatType` from `body.rs` (distinct from the header's
`FormatType`). -/
inductive FormatType where
  | missing
  | entries (l : List String)
deriving DecidableEq

/-- `FormatType::from_str`: missing sentinel or colon-split list. -/
def FormatType.from_str (format_str : String) : Except String FormatType :=
  if format_str = "" then .error "format cannot be empty"
  else if format_str = "." then .ok .missing
  else .ok (.entries (splitStr ':' format_str))

/-- `SampleType` from `body.rs`. -/
inductive SampleType where
  | missing
  | entries (l : List String)
deriving DecidableEq

/-- `SampleType::new`: each sample column in order; an empty column is a
hard error, `.` the missing sentinel, anything else colon-split. -/
def SampleType.new : List String → Except String (List SampleType)
  | [] => .ok []
  | s :: rest =>
    if s = "" then .error "sample cannot be empty"
    else
      let smp : SampleType :=
        if s = "." then .missing else .entries (splitStr ':' s)
      match SampleType.new rest with
      | .error e => .error e
      | .ok l => .ok (smp :: l)

/-- `DataLine` from `body.rs`. -/
structure DataLine where
  chromosome : String
  position : Nat
  id : IdType
  reference : String
  alternative : AltType
  quality : QualType
  filter : FilterType
  info : InfoType
  format : Option FormatType
  samples : List SampleType
deriving DecidableEq

/-- The expected tab-separated column count of a data line:
`FIXED_COLUMNS.len()` when no sample column is declared, otherwise one
more (`FORMAT`) plus one per sample. -/
def expectedLen (column_names : List String) : Nat :=
  if column_names ≠ [] then
    FIXED_COLUMNS.length + column_names.length + 1
  else FIXED_COLUMNS.length

/-- `DataLine::new` from `body.rs`: split on tabs, enforce the expected
column count (the error names both counts), then parse the `FORMAT`
column and sample columns when declared and the eight fixed columns,
each by its own rule, in the source's evaluation order. -/
def DataLine.new (line_str : String) (column_names : List String) :
    Except String DataLine :=
  let parts := splitStr '\t' line_str
  let expected_len := expectedLen column_names
  if parts.length ≠ expected_len then
    .error ("invalid number of columns found, expected " ++
      toString expected_len ++ ", found " ++ toString parts.length)
  else
    match (if expected_len > 8 then
        (FormatType.from_str (parts.getD 8 "")).map some
      else .ok none) with
    | .error e => .error e
    | .ok format =>
      match (if expected_len > 9 then SampleType.new (parts.drop 9)
        else .ok []) with
      | .error e => .error e
      | .ok samples =>
        match rustParseUInt (2 ^ 64) (parts.getD 1 "") with
        | .error e => .error e
        | .ok position =>
          match IdType.from_str (parts.getD 2 "") with
          | .error e => .error e
          | .ok id =>
            match AltType.from_str (parts.getD 4 "") with
            | .error e => .error e
            | .ok alternative =>
              match QualType.from_str (parts.getD 5 "") with
              | .error e => .error e
              | .ok quality =>
                match FilterType.from_str (parts.getD 6 "") with
                | .error e => .error e
                | .ok filter =>
                  match InfoType.from_str (parts.getD 7 "") with
                  | .error e => .error e
                  | .ok info =>
                    .ok ⟨parts.getD 0 "", position, id, parts.getD 3 "",
                      alternative, quality, filter, info, format, samples⟩

/-- Success of every per-field parse rule of `DataLine::new` (the two
`String`-typed columns are infallible; the `FORMAT` and sample columns
are only parsed when the expected column count declares them). -/
def fieldsOk (parts : List String) (expected_len : Nat) : Bool :=
  isOkE (if expected_len > 8 then
      (FormatType.from_str (parts.getD 8 "")).map some
    else (.ok none : Except String (Option FormatType))) &&
  isOkE (if expected_len > 9 then SampleType.new (parts.drop 9)
    else .ok []) &&
  isOkE (rustParseUInt (2 ^ 64) (parts.getD 1 "")) &&
  isOkE (IdType.from_str (parts.getD 2 "")) &&
  isOkE (AltType.from_str (parts.getD 4 "")) &&
  isOkE (QualType.from_str (parts.getD 5 "")) &&
  isOkE (FilterType.from_str (parts.getD 6 "")) &&
  isOkE (InfoType.from_str (parts.getD 7 ""))

end Vcf.Body

namespace Vcf.Header

/-- The success condition of `parse_column_names`, spelled out: the line
starts with the fixed eight-column prelude, and either nothing (after
trimming) follows it and no sample is declared, or what follows starts
with the `FORMAT` marker and the returned names are the tab-split of the
trimmed remainder, pairwise distinct. -/
def columnNamesOkSpec (line : String) (cols : List String) : Prop :=
  listPfx colPfx.data line.data = true ∧
    ((trimStr (String.mk (line.data.drop colPfx.data.length)) = "" ∧
        cols = []) ∨
      (trimStr (String.mk (line.data.drop colPfx.data.length)) ≠ "" ∧
        listPfx "FORMAT".data
          (trimStr (String.mk (line.data.drop colPfx.data.length))).data =
            true ∧
        cols = splitStr '\t'
          (trimStr (String.mk
            ((trimStr (String.mk
              (line.data.drop colPfx.data.length))).data.drop 6))) ∧
        uniqueb cols = true))

end Vcf.Header

section Theorems

open Vcf Vcf.Header Vcf.Body

/-- C4: parsing a `##META=<...>` header line whose tokenized payload
lacks the `Values` key does not return an `Err`: the source fetches
`Values` with `Option::unwrap`, so `HeaderLine::from_str` panics.  This
theorem evaluates the embedded code at the failing input, exhibiting the
divergence from the specified "value not found" hard error. -/
theorem c4_meta_missing_values_panics :
    HeaderLine.from_str "##META=<ID=Assay,Type=String,Number=.>" =
      .panicked := by
  rfl

/-- C6: the payload `<ID=SVTYPE,Description="Type of \"structural\"
variant">` tokenizes successfully, mapping `Description` to the literal
text with the backslash-escaped quotes preserved verbatim, and does not
terminate at an escaped quote. -/
theorem c6_escaped_quotes_verbatim :
    parse_header_payload
        "<ID=SVTYPE,Description=\"Type of \\\"structural\\\" variant\">" =
      .ok [("ID", "SVTYPE"),
           ("Description", "Type of \\\"structural\\\" variant")] := by
  rfl

/-- C9: for the syntactically well-formed header line
`##ALT=<ID=DEL::INS,Description="d">`, whose `ID` holds an empty
colon-segment, `HeaderLine::from_str` does not return an `Err`: the
`AltId::new` failure is unwrapped inside `new_alt_ids`, so parsing
panics; the same line without the empty segment parses normally. -/
theorem c9_alt_empty_segment_panics :
    HeaderLine.from_str "##ALT=<ID=DEL::INS,Description=\"d\">" =
        RustResult.panicked ∧
      HeaderLine.from_str "##ALT=<ID=DEL:INS,Description=\"d\">" =
        .ok (.alt [.del, .ins] "d") := by
  exact ⟨rfl, rfl⟩

/-- C8 (counterexample): the claim asserts that an empty token inside the
semicolon-delimited `ID` field is a hard error; in fact `IdType::from_str`
accepts `rs1;;rs2` (keeping the empty entry) and `DataLine::new` succeeds
on a whole line carrying that field. -/
theorem c8_counterexample_empty_id_token_accepted :
    IdType.from_str "rs1;;rs2" = .ok (.entries ["rs1", "", "rs2"]) ∧
      DataLine.new "1\t100\trs1;;rs2\tA\tC\t.\tPASS\t." [] =
        .ok ⟨"1", 100, .entries ["rs1", "", "rs2"], "A", .entries ["C"],
          .missing, .pass, .missing, none, []⟩ := by
  exact ⟨rfl, rfl⟩

/-- C8 (amended): `IdType::from_str` fails exactly when the whole `ID`
field is empty; an empty token inside the semicolon list (as in `rs1;;rs2`
or `rs1;`) is accepted and preserved as an empty entry rather than
rejected. -/
theorem c8_id_errors_only_on_empty_field :
    (∀ s : String, isErrE (IdType.from_str s) = true ↔ s = "") ∧
      IdType.from_str "rs1;;rs2" = .ok (.entries ["rs1", "", "rs2"]) ∧
      IdType.from_str "rs1;" = .ok (.entries ["rs1", ""]) := by
  refine ⟨?_, rfl, rfl⟩
  intro s
  unfold IdType.from_str
  by_cases h : s = "" <;> by_cases h2 : s = "." <;>
    simp [h, h2, isErrE]

/-- C10: the scanner, once in the `Key` state, ignores every character
other than `=`; the end-of-input checks do not reject the `Key` state, so
a payload whose trailing text after the last separating comma contains no
`=` (a bare token as in `<ID=X,Foo>`, or nothing as in `<ID=X,>`) parses
to `Ok` with that trailing text silently omitted from the mapping. -/
theorem c10_trailing_keyless_text_dropped :
    (∀ (cs : List Char) (n i : Nat) (rest : List Char) (s : ScanSt),
        s.st = .key → (∀ c ∈ rest, ¬ c = '=') →
          scanGo cs n i rest s = .ok s) ∧
      parse_header_payload "<ID=X,Foo>" = .ok [("ID", "X")] ∧
      parse_header_payload "<ID=X,>" = .ok [("ID", "X")] := by
  refine ⟨?_, rfl, rfl⟩
  intro cs n i rest
  induction rest generalizing i with
  | nil => intro s _ _; rfl
  | cons c rest ih =>
    intro s hst hne
    obtain ⟨st, ks, ke, vs, pv, res⟩ := s
    simp only at hst
    subst hst
    have hc : ¬ c = '=' := hne c (by simp)
    have hstep : scanStep cs n i c ⟨.key, ks, ke, vs, pv, res⟩ =
        .ok ⟨.key, ks, ke, vs, pv, res⟩ := by
      unfold scanStep
      simp [hc]
    rw [scanGo, hstep]
    exact ih (i + 1) ⟨.key, ks, ke, vs, pv, res⟩ rfl
      (fun c' hmem => hne c' (by simp [hmem]))

/-- C7: for a `##FORMAT` or `##INFO` header line whose tokenized payload
lacks the `Number` key, parsing yields `Number::Unknown`, and when it
lacks the `Type` key it yields the `String` value type, without erroring:
stated generally over all payload mappings, and exercised concretely on
mappings and on whole header lines with `Number` and `Type` genuinely
absent, which parse successfully to the defaults; the `BKPTID` line
(whose `Number` is the `.` sentinel and `Type` is present) parses to an
`Info` variant with Number unknown, type String, and source and version
absent. -/
theorem c7_number_and_type_defaults :
    mkFormat [("ID", "x"), ("Description", "d")] =
        .ok (.format "x" .unknown .string "d") ∧
      mkInfo [("ID", "x"), ("Description", "d")] =
        .ok (.info "x" .unknown .string "d" none none) ∧
      HeaderLine.from_str "##FORMAT=<ID=GT,Description=\"Genotype\">" =
        .ok (.format "GT" .unknown .string "Genotype") ∧
      HeaderLine.from_str "##INFO=<ID=NS,Description=\"Number of samples\">" =
        .ok (.info "NS" .unknown .string "Number of samples" none none) ∧
    (∀ (parts : List (String × String)) (hl : HeaderLine),
        lhmGet parts "Number" = none → mkFormat parts = .ok hl →
          ∃ i t d, hl = .format i .unknown t d) ∧
      (∀ (parts : List (String × String)) (hl : HeaderLine),
        lhmGet parts "Type" = none → mkFormat parts = .ok hl →
          ∃ i n d, hl = .format i n .string d) ∧
      (∀ (parts : List (String × String)) (hl : HeaderLine),
        lhmGet parts "Number" = none → mkInfo parts = .ok hl →
          ∃ i t d sv vv, hl = .info i .unknown t d sv vv) ∧
      (∀ (parts : List (String × String)) (hl : HeaderLine),
        lhmGet parts "Type" = none → mkInfo parts = .ok hl →
          ∃ i n d sv vv, hl = .info i n .string d sv vv) ∧
      HeaderLine.from_str
          "##INFO=<ID=BKPTID,Number=.,Type=String,Description=\"ID of the assembled alternate allele in the assembly file\">" =
        .ok (.info "BKPTID" .unknown .string
          "ID of the assembled alternate allele in the assembly file"
          none none) := by
  refine ⟨rfl, rfl, rfl, rfl, ?_, ?_, ?_, ?_, rfl⟩
  · intro parts hl hN h
    unfold mkFormat at h
    rw [hN] at h
    simp only [Number.new] at h
    split at h
    · exact absurd h (by simp)
    · split at h
      · exact absurd h (by simp)
      · split at h
        · exact absurd h (by simp)
        · rw [RustResult.ok.injEq] at h
          exact ⟨_, _, _, h.symm⟩
  · intro parts hl hT h
    unfold mkFormat at h
    rw [hT] at h
    simp only [FormatType.new] at h
    split at h
    · exact absurd h (by simp)
    · split at h
      · exact absurd h (by simp)
      · split at h
        · exact absurd h (by simp)
        · rw [RustResult.ok.injEq] at h
          exact ⟨_, _, _, h.symm⟩
  · intro parts hl hN h
    unfold mkInfo at h
    rw [hN] at h
    simp only [Number.new] at h
    split at h
    · exact absurd h (by simp)
    · split at h
      · exact absurd h (by simp)
      · split at h
        · exact absurd h (by simp)
        · rw [RustResult.ok.injEq] at h
          exact ⟨_, _, _, _, _, h.symm⟩
  · intro parts hl hT h
    unfold mkInfo at h
    rw [hT] at h
    simp only [InfoType.new] at h
    split at h
    · exact absurd h (by simp)
    · split at h
      · exact absurd h (by simp)
      · split at h
        · exact absurd h (by simp)
        · rw [RustResult.ok.injEq] at h
          exact ⟨_, _, _, _, _, h.symm⟩

/-- C5: `parse_column_names` succeeds exactly when the line begins with
the fixed 8-column prelude and what follows is either nothing (trimmed),
yielding the empty sample list, or the `FORMAT` marker followed by the
tab-split, pairwise-unique sample names; concretely, the canonical
two-sample line yields exactly `["NA00001", "NA00002"]`, the same line
with a duplicated trailing name is a hard error, and so is a line whose
remainder does not start with the `FORMAT` marker. -/
theorem c5_parse_column_names_characterization :
    (∀ (line : String) (cols : List String),
        parse_column_names line = .ok cols ↔ columnNamesOkSpec line cols) ∧
      parse_column_names
          "#CHROM\tPOS\tID\tREF\tALT\tQUAL\tFILTER\tINFO\tFORMAT\tNA00001\tNA00002" =
        .ok ["NA00001", "NA00002"] ∧
      isErrE (parse_column_names
        "#CHROM\tPOS\tID\tREF\tALT\tQUAL\tFILTER\tINFO\tFORMAT\tNA00001\tNA00002\tNA00001") =
          true ∧
      isErrE (parse_column_names
        "#CHROM\tPOS\tID\tREF\tALT\tQUAL\tFILTER\tINFO\tNA00001\tNA00002") =
          true := by
  refine ⟨?_, rfl, rfl, rfl⟩
  intro line cols
  unfold parse_column_names columnNamesOkSpec
  by_cases h1 : listPfx colPfx.data line.data = true
  · rw [if_pos h1]
    simp only [h1, true_and]
    by_cases h2 :
        trimStr (String.mk (line.data.drop colPfx.data.length)) = ""
    · rw [if_pos h2]
      simp only [h2, ne_eq, not_true_eq_false, false_and, or_false,
        true_and, Except.ok.injEq]
      exact ⟨fun h => h.symm, fun h => h.symm⟩
    · rw [if_neg h2]
      simp only [h2, ne_eq, not_false_eq_true, false_and, false_or,
        true_and]
      by_cases h3 : listPfx "FORMAT".data
          (trimStr (String.mk (line.data.drop colPfx.data.length))).data =
            true
      · rw [if_pos h3]
        simp only [h3, true_and]
        by_cases h4 : uniqueb (splitStr '\t'
            (trimStr (String.mk ((trimStr (String.mk
              (line.data.drop colPfx.data.length))).data.drop 6)))) = true
        · rw [if_pos h4]
          simp only [Except.ok.injEq]
          constructor
          · intro h
            exact ⟨h.symm, h ▸ h4⟩
          · intro ⟨h, _⟩
            exact h.symm
        · rw [if_neg h4]
          constructor
          · intro h; cases h
          · intro ⟨h, hu⟩
            exact absurd (h ▸ hu) h4
      · rw [if_neg h3]
        constructor
        · intro h; cases h
        · intro ⟨h, _⟩; exact absurd h h3
  · rw [if_neg h1]
    constructor
    · intro h; cases h
    · intro ⟨hp, _⟩; exact absurd hp h1

/-- C2: `DataLine::new` succeeds exactly when the tab-split column count
equals the expected count (8 when no sample column is declared, else
8 + 1 + sample count) and every field parses by its own rule; the
`FORMAT` and sample parses are demanded exactly when the expected count
declares them; a count mismatch is reported with an error naming both
the expected and the found count — exercised concretely at zero, one and
two declared sample columns, for failing and for well-formed lines. -/
theorem c2_dataline_new_success_characterization :
    (∀ (line : String) (cols : List String),
        isOkE (DataLine.new line cols) = true ↔
          ((splitStr '\t' line).length = expectedLen cols ∧
            fieldsOk (splitStr '\t' line) (expectedLen cols) = true)) ∧
      (∀ (e : Nat) (x : String),
        isOkE (if e > 8 then (Body.FormatType.from_str x).map some
            else (.ok none : Except String (Option Body.FormatType))) =
              true ↔
          (e ≤ 8 ∨ isOkE (Body.FormatType.from_str x) = true)) ∧
      (∀ (e : Nat) (l : List String),
        isOkE (if e > 9 then SampleType.new l
            else (.ok [] : Except String (List SampleType))) = true ↔
          (e ≤ 9 ∨ isOkE (SampleType.new l) = true)) ∧
      (∀ (line : String) (cols : List String),
        (splitStr '\t' line).length ≠ expectedLen cols →
          DataLine.new line cols =
            .error ("invalid number of columns found, expected " ++
              toString (expectedLen cols) ++ ", found " ++
              toString (splitStr '\t' line).length)) ∧
      expectedLen [] = 8 ∧ expectedLen ["Sample01"] = 10 ∧
      expectedLen ["S1", "S2"] = 11 ∧
      DataLine.new "1\t10177\t.\tA\tAC\t.\tLOWCONF\t.\tGT:RC:AC:GP:DS"
          ["Sample01"] =
        .error "invalid number of columns found, expected 10, found 9" ∧
      DataLine.new "1\t100\t.\tA\tC\t.\tPASS\t.\textra" [] =
        .error "invalid number of columns found, expected 8, found 9" ∧
      DataLine.new "1\t100\t.\tA\tC\t.\tPASS\t.\tGT\t0/1" ["S1", "S2"] =
        .error "invalid number of columns found, expected 11, found 10" ∧
      isOkE (DataLine.new "1\t100\t.\tA\tC\t.\tPASS\t." []) = true ∧
      isOkE (DataLine.new "1\t100\t.\tA\tC\t.\tPASS\t.\tGT\t0/1" ["S1"]) =
        true ∧
      isOkE (DataLine.new "1\t100\t.\tA\tC\t.\tPASS\t.\tGT\t0/1\t0/0"
        ["S1", "S2"]) = true := by
  refine ⟨?_, ?_, ?_, ?_, rfl, rfl, rfl, rfl, rfl, rfl, rfl, rfl, rfl⟩
  · intro line cols
    simp only [DataLine.new]
    by_cases hlen : (splitStr '\t' line).length = expectedLen cols
    · rw [if_neg (not_not_intro hlen)]
      simp only [hlen, true_and, fieldsOk]
      cases hf : (if expectedLen cols > 8 then
          (Body.FormatType.from_str ((splitStr '\t' line).getD 8 "")).map
            some
        else (.ok none : Except String (Option Body.FormatType))) with
      | error e => simp [hf, isOkE]
      | ok fv =>
        simp only [hf]
        cases hs : (if expectedLen cols > 9 then
            SampleType.new ((splitStr '\t' line).drop 9)
          else (.ok [] : Except String (List SampleType))) with
        | error e => simp [hs, isOkE]
        | ok sv =>
          simp only [hs]
          cases hp : rustParseUInt (2 ^ 64) ((splitStr '\t' line).getD 1 "") with
          | error e => simp [hp, isOkE]
          | ok pv =>
            simp only [hp]
            cases hid : IdType.from_str ((splitStr '\t' line).getD 2 "") with
            | error e => simp [hid, isOkE]
            | ok iv =>
              simp only [hid]
              cases ha : AltType.from_str ((splitStr '\t' line).getD 4 "") with
              | error e => simp [ha, isOkE]
              | ok av =>
                simp only [ha]
                cases hq : QualType.from_str ((splitStr '\t' line).getD 5 "") with
                | error e => simp [hq, isOkE]
                | ok qv =>
                  simp only [hq]
                  cases hfi : FilterType.from_str ((splitStr '\t' line).getD 6 "") with
                  | error e => simp [hfi, isOkE]
                  | ok flv =>
                    simp only [hfi]
                    cases hin : InfoType.from_str ((splitStr '\t' line).getD 7 "") with
                    | error e => simp [hin, isOkE]
                    | ok inv => simp [hin, isOkE]
    · rw [if_pos hlen]
      simp [isOkE, hlen]
  · intro e x
    by_cases h8 : e > 8
    · rw [if_pos h8]
      cases hf : Body.FormatType.from_str x with
      | error er => simp [Except.map, isOkE, hf]; omega
      | ok fv => simp [Except.map, isOkE, hf]
    · rw [if_neg h8]
      simp only [isOkE, true_iff]
      exact Or.inl (by omega)
  · intro e l
    by_cases h9 : e > 9
    · rw [if_pos h9]
      constructor
      · intro h; exact Or.inr h
      · intro h
        rcases h with h | h
        · omega
        · exact h
    · rw [if_neg h9]
      simp only [isOkE, true_iff]
      exact Or.inl (by omega)
  · intro line cols hlen
    simp only [DataLine.new]
    rw [if_pos hlen]

/-- Any index slice of a character list is one of its contiguous
sublists. -/
theorem slice_sub (cs : List Char) (a b : Nat) :
    ∃ l r, cs = l ++ (slice cs a b).data ++ r := by
  refine ⟨cs.take a, (cs.drop a).drop (b - a), ?_⟩
  show cs = cs.take a ++ (cs.drop a).take (b - a) ++ (cs.drop a).drop (b - a)
  rw [List.append_assoc, List.take_append_drop, List.take_append_drop]

/-- Contiguous-sublist containment is transitive along an enclosing
slice. -/
theorem sub_trans {big mid : List Char} {v : String}
    (h1 : ∃ l r, big = l ++ mid ++ r)
    (h2 : ∃ l r, mid = l ++ v.data ++ r) :
    ∃ l r, big = l ++ v.data ++ r := by
  obtain ⟨l0, r0, h1⟩ := h1
  obtain ⟨l1, r1, h2⟩ := h2
  exact ⟨l0 ++ l1, r1 ++ r0, by subst h1; subst h2; simp⟩

/-- `finishValue` preserves the contiguous-sublist invariant: the value
of the pair it appends is an index slice of the payload. -/
theorem finishValue_valsSub {cs : List Char} {s : ScanSt}
    {vEnd nks : Nat} {nst : PState} {s' : ScanSt}
    (h : finishValue cs s vEnd nks nst = .ok s')
    (hm : ∀ p ∈ s.res, ∃ l r, cs = l ++ (p.2 : String).data ++ r) :
    ∀ p ∈ s'.res, ∃ l r, cs = l ++ (p.2 : String).data ++ r := by
  unfold finishValue at h
  split at h
  · cases h
  · split at h
    · cases h
    · injection h with h
      subst h
      intro p hp
      rcases List.mem_append.mp hp with hmem | hmem
      · exact hm p hmem
      · simp only [List.mem_singleton] at hmem
        subst hmem
        exact slice_sub cs _ _

/-- One scanner step preserves the contiguous-sublist invariant on the
accumulated mapping: the only values it ever inserts are index slices of
the payload. -/
theorem scanStep_valsSub {cs : List Char} {n i : Nat} {ch : Char}
    {s s' : ScanSt} (h : scanStep cs n i ch s = .ok s')
    (hm : ∀ p ∈ s.res, ∃ l r, cs = l ++ (p.2 : String).data ++ r) :
    ∀ p ∈ s'.res, ∃ l r, cs = l ++ (p.2 : String).data ++ r := by
  unfold scanStep at h
  split at h
  · -- Key state
    split at h <;> (injection h with h; subst h; exact hm)
  · -- Value state
    split at h
    · exact finishValue_valsSub h hm
    · split at h
      · split at h
        · cases h
        · injection h with h
          subst h
          exact hm
      · injection h with h
        subst h
        exact hm
  · -- EnclosedValue state
    split at h
    · exact finishValue_valsSub h hm
    · split at h <;> (injection h with h; subst h; exact hm)
  · -- QuoteEnded state
    split at h
    · injection h with h
      subst h
      exact hm
    · cases h

/-- The whole scanning loop preserves the contiguous-sublist
invariant. -/
theorem scanGo_valsSub (cs : List Char) (n : Nat) :
    ∀ (rest : List Char) (i : Nat) (s sFin : ScanSt),
      scanGo cs n i rest s = .ok sFin →
      (∀ p ∈ s.res, ∃ l r, cs = l ++ (p.2 : String).data ++ r) →
      ∀ p ∈ sFin.res, ∃ l r, cs = l ++ (p.2 : String).data ++ r := by
  intro rest
  induction rest with
  | nil =>
    intro i s sFin h hm
    rw [scanGo] at h
    injection h with h
    subst h
    exact hm
  | cons c rest ih =>
    intro i s sFin h hm
    rw [scanGo] at h
    cases hstep : scanStep cs n i c s with
    | error e => rw [hstep] at h; cases h
    | ok s1 =>
      rw [hstep] at h
      exact ih (i + 1) s1 sFin h (scanStep_valsSub hstep hm)

/-- Every pair the tokenizer recognizes in a payload has its value
verbatim: a contiguous substring of the payload text. -/
theorem header_pairs_verbatim :
    ∀ (payload : String) (E : List (String × String)),
      header_pairs payload = .ok E →
        ∀ kv ∈ E, ∃ l r, payload.data = l ++ (kv.2 : String).data ++ r := by
  have hend : ∀ (p : List Char) (st : PState)
      (res m : List (String × String)),
      endStateCheck p st res = .ok m → m = res := by
    intro p st res m h
    cases st <;> simp only [endStateCheck] at h <;> cases h <;> rfl
  have stripped : ∀ (p : List Char) (E : List (String × String)),
      parsePayloadStripped p = .ok E →
        ∀ kv ∈ E, ∃ l r, p = l ++ (kv.2 : String).data ++ r := by
    intro p E h
    unfold parsePayloadStripped at h
    split at h
    · cases h
    · split at h
      · injection h with h
        subst h
        intro kv hkv
        simp only [List.mem_singleton] at hkv
        subst hkv
        exact ⟨[], [], by simp⟩
      · cases hscan : scanGo p p.length 0 p initSt with
        | error e => rw [hscan] at h; cases h
        | ok sFin =>
          rw [hscan] at h
          have hm := hend p sFin.st sFin.res E h
          subst hm
          intro kv hkv
          exact scanGo_valsSub p p.length p 0 initSt sFin hscan
            (by intro q hq; cases hq) kv hkv
  intro payload E h
  simp only [header_pairs] at h
  by_cases hb1 : payload.data.headD ' ' = '<' ∨
      payload.data.getLastD ' ' = '>'
  · rw [if_pos hb1] at h
    by_cases hb2 : payload.data.headD ' ' = '<' ∧
        payload.data.getLastD ' ' = '>'
    · rw [if_neg (not_not_intro hb2)] at h
      have hsl : (Header.slice payload.data 1
            (payload.data.length - 1)).data =
          (payload.data.drop 1).take (payload.data.length - 2) := by
        show (payload.data.drop 1).take (payload.data.length - 1 - 1) = _
        congr 1
      have hsub := slice_sub payload.data 1 (payload.data.length - 1)
      rw [hsl] at hsub
      intro kv hkv
      exact sub_trans hsub (stripped _ E h kv hkv)
    · rw [if_pos hb2] at h
      cases h
  · rw [if_neg hb1] at h
    intro kv hkv
    exact stripped _ E h kv hkv

/-- Folding `lhmInsert` over a pair sequence from any starting map keeps
of the start exactly the entries whose keys the sequence never
re-inserts, in place, and appends the fold of the sequence itself. -/
theorem foldl_lhmInsert_decomp :
    ∀ (E : List (String × String)) (acc : List (String × String)),
      E.foldl (fun a q => lhmInsert a q.1 q.2) acc =
        acc.filter (fun q => !(keyMem q.1 E)) ++ lhmBuild E := by
  intro E
  induction E with
  | nil =>
    intro acc
    simp [keyMem, lhmBuild]
  | cons p E ih =>
    intro acc
    have hnil : lhmInsert [] p.1 p.2 = [p] := by
      simp [lhmInsert]
    have hbuild : lhmBuild (p :: E) =
        [p].filter (fun q => !(keyMem q.1 E)) ++ lhmBuild E := by
      show List.foldl _ [] (p :: E) = _
      rw [List.foldl_cons, hnil]
      exact ih [p]
    rw [List.foldl_cons, ih (lhmInsert acc p.1 p.2), hbuild,
      ← List.append_assoc]
    congr 1
    have hfe : (fun q : String × String =>
        (!(keyMem q.1 E)) && !(p.1 == q.1)) =
        (fun q : String × String => !(keyMem q.1 (p :: E))) := by
      funext q
      simp [keyMem, List.any_cons, Bool.not_or, Bool.and_comm]
    rw [lhmInsert, List.filter_append, List.filter_filter, hfe]

/-- Building the map from `p :: E` keeps `p` (at the front) exactly when
its key does not occur again later in `E`. -/
theorem lhmBuild_cons (p : String × String) (E : List (String × String)) :
    lhmBuild (p :: E) =
      (if keyMem p.1 E then [] else [p]) ++ lhmBuild E := by
  show List.foldl _ [] (p :: E) = _
  rw [List.foldl_cons]
  have hnil : lhmInsert [] p.1 p.2 = [p] := by
    simp [lhmInsert]
  rw [hnil, foldl_lhmInsert_decomp E [p]]
  congr 1
  cases hk : keyMem p.1 E <;> simp [List.filter_cons, hk]

/-- Every entry of the built map is one of the input pairs: the fold
invents nothing. -/
theorem lhmBuild_mem_subset :
    ∀ (E : List (String × String)) (kv : String × String),
      kv ∈ lhmBuild E → kv ∈ E := by
  intro E
  induction E with
  | nil =>
    intro kv h
    simp [lhmBuild] at h
  | cons p E ih =>
    intro kv h
    rw [lhmBuild_cons] at h
    cases hk : keyMem p.1 E with
    | false =>
      rw [hk, if_neg Bool.false_ne_true, List.singleton_append] at h
      rcases List.mem_cons.mp h with h | h
      · exact h ▸ List.mem_cons_self p E
      · exact List.mem_cons_of_mem p (ih kv h)
    | true =>
      rw [hk, if_pos rfl, List.nil_append] at h
      exact List.mem_cons_of_mem p (ih kv h)

/-- `lastVal` finds a value exactly when the key occurs in the pair
sequence. -/
theorem lastVal_isSome_eq_keyMem :
    ∀ (E : List (String × String)) (k : String),
      (lastVal k E).isSome = keyMem k E := by
  intro E
  induction E with
  | nil => intro k; simp [lastVal, keyMem]
  | cons p E ih =>
    intro k
    have hx : keyMem k (p :: E) = ((p.1 == k) || keyMem k E) := by
      simp [keyMem, List.any_cons]
    rw [lastVal, hx]
    cases hl : lastVal k E with
    | some v =>
      have ht : keyMem k E = true := by rw [← ih k, hl]; rfl
      rw [ht, Bool.or_true]
      rfl
    | none =>
      have hf : keyMem k E = false := by rw [← ih k, hl]; rfl
      rw [hf, Bool.or_false]
      cases hpk : p.1 == k <;> simp

/-- `lhmGet` on a non-empty map reads the head entry first. -/
theorem lhmGet_cons (q : String × String) (m : List (String × String))
    (k : String) :
    lhmGet (q :: m) k = if q.1 == k then some q.2 else lhmGet m k := by
  by_cases h : q.1 == k <;> simp [lhmGet, List.find?_cons, h]

/-- Looking a key up in the built map returns the value of its last
occurrence in the input pair sequence — last write wins. -/
theorem lhmGet_lhmBuild :
    ∀ (E : List (String × String)) (k : String),
      lhmGet (lhmBuild E) k = lastVal k E := by
  intro E
  induction E with
  | nil => intro k; simp [lhmBuild, lastVal, lhmGet]
  | cons p E ih =>
    intro k
    rw [lhmBuild_cons, lastVal]
    cases hk : keyMem p.1 E with
    | false =>
      rw [if_neg Bool.false_ne_true, List.singleton_append, lhmGet_cons]
      cases hpk : p.1 == k with
      | true =>
        rw [if_pos rfl]
        have hkE : keyMem k E = false := by
          rw [← eq_of_beq hpk]; exact hk
        have hnone : lastVal k E = none := by
          have hiso := lastVal_isSome_eq_keyMem E k
          rw [hkE] at hiso
          cases hv : lastVal k E
          · rfl
          · rw [hv] at hiso; cases hiso
        rw [hnone]
        simp
      | false =>
        rw [if_neg Bool.false_ne_true, ih]
        cases hl : lastVal k E with
        | some v => rfl
        | none => rw [if_neg Bool.false_ne_true]
    | true =>
      rw [if_pos rfl, List.nil_append, ih]
      cases hl : lastVal k E with
      | some v => rfl
      | none =>
        cases hpk : p.1 == k with
        | true =>
          exfalso
          have hkE : keyMem k E = true := by
            rw [← eq_of_beq hpk]; exact hk
          have hiso := lastVal_isSome_eq_keyMem E k
          rw [hl, hkE] at hiso
          cases hiso
        | false => rw [if_neg Bool.false_ne_true]

/-- The keys of the built map are the input's keys in the order of their
last occurrences. -/
theorem map_fst_lhmBuild :
    ∀ E : List (String × String),
      (lhmBuild E).map Prod.fst = lastKeys E := by
  intro E
  induction E with
  | nil => simp [lhmBuild, lastKeys]
  | cons p E ih =>
    rw [lhmBuild_cons, lastKeys]
    cases hk : keyMem p.1 E <;> simp [hk, ih]

/-- C3 (amended): for every payload the tokenizer accepts, the returned
ordered mapping is exactly the sequential linked-hash-map insert of the
key/value pairs recognized in the input, in occurrence order; every
stored value is a verbatim contiguous substring of the input (delimiters
stripped, escape sequences preserved as written, not resolved); the
mapping's entries are exactly pairs recognized in the input, with every
recognized key present; a duplicated key gets the value of its last
occurrence, and the keys are listed in the order of their last
occurrences (the crate's insert moves an existing key to the back). -/
theorem c3_payload_mapping_order_lastwins_verbatim :
    (∀ (payload : String) (E : List (String × String)),
        header_pairs payload = .ok E →
          parse_header_payload payload = .ok (lhmBuild E) ∧
          ∀ kv ∈ E, ∃ l r, payload.data = l ++ (kv.2 : String).data ++ r) ∧
      (∀ (payload : String) (m : List (String × String)),
        parse_header_payload payload = .ok m →
          ∀ kv ∈ m, ∃ l r, payload.data = l ++ (kv.2 : String).data ++ r) ∧
      (∀ E : List (String × String),
        (lhmBuild E).map Prod.fst = lastKeys E) ∧
      (∀ (E : List (String × String)) (k : String),
        lhmGet (lhmBuild E) k = lastVal k E) ∧
      (∀ (E : List (String × String)) (kv : String × String),
        kv ∈ lhmBuild E → kv ∈ E) ∧
      (∀ (E : List (String × String)) (kv : String × String),
        kv ∈ E → (lhmGet (lhmBuild E) kv.1).isSome = true) ∧
      parse_header_payload "<ID=TumourSample,Original=GermlineID>" =
        .ok [("ID", "TumourSample"), ("Original", "GermlineID")] ∧
      parse_header_payload "<ID=X,ID=Y,B=2>" =
        .ok [("ID", "Y"), ("B", "2")] ∧
      parse_header_payload "<A=1,B=2,A=3>" =
        .ok [("B", "2"), ("A", "3")] := by
  refine ⟨?_, ?_, map_fst_lhmBuild, lhmGet_lhmBuild, lhmBuild_mem_subset,
    ?_, rfl, rfl, rfl⟩
  · intro payload E h
    refine ⟨?_, header_pairs_verbatim payload E h⟩
    simp [parse_header_payload, h, Except.map]
  · intro payload m h kv hkv
    cases hE : header_pairs payload with
    | error e =>
      rw [parse_header_payload, hE] at h
      cases h
    | ok E =>
      rw [parse_header_payload, hE] at h
      simp only [Except.map] at h
      injection h with h
      subst h
      exact header_pairs_verbatim payload E hE kv
        (lhmBuild_mem_subset E kv hkv)
  · intro E kv hkv
    rw [lhmGet_lhmBuild, lastVal_isSome_eq_keyMem]
    simp only [keyMem, List.any_eq_true]
    exact ⟨kv, hkv, by simp⟩

/-- C3 (counterexample): the tokenizer does not resolve internal escape
sequences: on the `SVTYPE` payload the stored `Description` value keeps
the backslash-escaped quotes verbatim and differs from the
escape-resolved text. -/
theorem c3_counterexample_escapes_not_resolved :
    parse_header_payload
        "<ID=SVTYPE,Description=\"Type of \\\"structural\\\" variant\">" =
      .ok [("ID", "SVTYPE"),
           ("Description", "Type of \\\"structural\\\" variant")] ∧
      ("Type of \\\"structural\\\" variant" : String) ≠
        "Type of \"structural\" variant" := by
  exact ⟨rfl, by decide⟩

/-- C1 (counterexample): the parse/format/re-parse round-trip fails on
parsed header lines of several variant kinds.  `Meta`: the formatter
emits the `Values` clause only when the value list is empty (the
source's condition is inverted), so the formatted output of a parsed
`Meta` line lacks `Values` and re-parsing it panics.  `Contig`: a quoted
attribute value containing a comma is re-emitted unquoted, so re-parsing
truncates it at the comma and drops the remainder.  `Assembly`: a value
containing `=` (obtainable from a bracketed `Value=` payload) re-emits
as a bare payload with an `=`, which re-tokenizes as a different key and
re-parsing fails. -/
theorem c1_counterexample_meta_roundtrip_fails :
    HeaderLine.from_str
        "##META=<ID=Assay,Type=String,Number=.,Values=[WholeGenome, Exome]>" =
      .ok (.meta "Assay" "String" .unknown ["WholeGenome", "Exome"]) ∧
      HeaderLine.display
          (.meta "Assay" "String" .unknown ["WholeGenome", "Exome"]) =
        "##META=<ID=Assay,Type=String,Number=.>" ∧
      HeaderLine.from_str "##META=<ID=Assay,Type=String,Number=.>" =
        RustResult.panicked ∧
      HeaderLine.from_str "##contig=<ID=x,note=\"a,b\">" =
        .ok (.contig "x" none [("note", "a,b")]) ∧
      HeaderLine.display (.contig "x" none [("note", "a,b")]) =
        "##contig=<ID=x,note=a,b>" ∧
      HeaderLine.from_str "##contig=<ID=x,note=a,b>" =
        .ok (.contig "x" none [("note", "a")]) ∧
      HeaderLine.contig "x" none [("note", "a")] ≠
        .contig "x" none [("note", "a,b")] ∧
      HeaderLine.from_str "##assembly=<Value=a=b>" =
        .ok (.assembly "a=b") ∧
      HeaderLine.display (.assembly "a=b") = "##assembly=a=b" ∧
      HeaderLine.from_str "##assembly=a=b" =
        .err "value not found in map: value=`Value`" := by
  exact ⟨rfl, rfl, rfl, rfl, rfl, rfl, by decide, rfl, rfl, rfl⟩

set_option maxRecDepth 8000 in
/-- C1 (amended): the parse-then-format-then-re-parse round-trip is not
a law of the codec.  It fails for parsed `Meta` lines (the formatter's
inverted emptiness test omits the `Values` clause and re-parsing
panics), for `Pedigree`/`Ancestors` lines (the formatter emits
zero-based `Name_i` entries with no separating commas and re-parsing
fails), and for lines of otherwise well-behaved kinds whose parsed
values contain payload metacharacters that the formatter re-emits
unquoted or bare — a `Contig` attribute value containing a comma, an
`assembly` value containing `=`.  It does hold for representative lines
of every variant kind other than `Meta` and `Pedigree`/`Ancestors`
whose values are free of such metacharacters, witnessed per kind
below. -/
theorem c1_roundtrip_by_kind :
    roundTrips "##contig=<ID=x,note=\"a,b\">" = false ∧
      roundTrips "##assembly=<Value=a=b>" = false ∧
    roundTrips "##ALT=<ID=INS:ME:ALU,Description=\"Insertion of ALU element\">" =
        true ∧
      roundTrips "##assembly=ftp://ftp-trace.ncbi.nih.gov/1000genomes" = true ∧
      roundTrips
          "##contig=<ID=20,length=62435964,assembly=B36,md5=f126cdf8a6e0c7f379d618ff66beb2da,species=\"Homo sapiens\",taxonomy=x>" =
        true ∧
      roundTrips "##fileDate=20100501" = true ∧
      roundTrips "##FILTER=<ID=s50,Description=\"Less than 50% of samples have data\">" =
        true ∧
      roundTrips
          "##FORMAT=<ID=CNQ,Number=1,Type=Float,Description=\"Copy number genotype quality for imprecise events\">" =
        true ∧
      roundTrips
          "##INFO=<ID=BKPTID,Number=.,Type=String,Description=\"ID of the assembled alternate allele in the assembly file\">" =
        true ∧
      roundTrips
          "##INFO=<ID=X,Number=2,Type=Integer,Description=\"d\",Source=\"src\",Version=\"1.0\">" =
        true ∧
      roundTrips "##PEDIGREE=<ID=TumourSample,Original=GermlineID>" = true ∧
      roundTrips "##PEDIGREE=<ID=ChildID,Father=FatherID,Mother=MotherID>" =
        true ∧
      roundTrips "##pedigreeDB=URL" = true ∧
      roundTrips "##reference=1000GenomesPilot-NCBI36" = true ∧
      roundTrips
          "##SAMPLE=<ID=TissueSample,Genomes=Germline;Tumor,Mixture=.3;.7,Description=\"Patient germline genome;Patient tumor genome\",DOI=url>" =
        true ∧
      roundTrips
          "##META=<ID=Assay,Type=String,Number=.,Values=[WholeGenome, Exome]>" =
        false ∧
      roundTrips "##PEDIGREE=<ID=SampleID,Name_1=Ancestor_1,Name_2=Ancestor_2>" =
        false ∧
      HeaderLine.from_str
          "##PEDIGREE=<ID=SampleID,Name_1=Ancestor_1,Name_2=Ancestor_2>" =
        .ok (.pedigree "SampleID" (.ancestors ["Ancestor_1", "Ancestor_2"])) ∧
      HeaderLine.display
          (.pedigree "SampleID" (.ancestors ["Ancestor_1", "Ancestor_2"])) =
        "##PEDIGREE=<ID=SampleID,Name_0=Ancestor_1Name_1=Ancestor_2>" ∧
      HeaderLine.from_str
          "##PEDIGREE=<ID=SampleID,Name_0=Ancestor_1Name_1=Ancestor_2>" =
        .err "invalid pedigree type" := by
  exact ⟨rfl, rfl, rfl, rfl, rfl, rfl, rfl, rfl, rfl, rfl, rfl, rfl, rfl,
    rfl, rfl, rfl, rfl, rfl, rfl, rfl⟩

end Theorems
